import Mathlib

/-!
Shallow embedding of the PhoneValue quote backend (two JavaScript sources:
`server.js`, the v3/grade version, and the earlier v1/condition version).
JavaScript numbers are modelled as `ℚ` (exact rationals); the claims below
only concern values on which binary floating point and exact rational
arithmetic agree.  A JavaScript `NaN` is modelled as `none : Option ℚ`.
String parsing is modelled at two levels.  `parseFloatJs` is JavaScript
`parseFloat` over the full number model `JsFloat` (NaN, the two infinities,
finite values): optional sign, the `Infinity` literal, digits with an
optional decimal point, and saturation to an infinity when the parsed
magnitude reaches the IEEE double overflow boundary `2 ^ 1024 - 2 ^ 970`.
The `Option ℚ`-valued `parseFloat` is its finite/NaN restriction
(`parseFloat_agrees`), adequate for the claims whose truth is insensitive
to saturation.  The exponent form (`1e5`) is not modelled; theorems over
the unstripped v1 parse paths therefore carry an explicit
no-exponent-character hypothesis wherever saturation matters (after the
`server.js` strip no exponent or `Infinity` characters can survive, so the
v3 paths need no such hypothesis).
-/

namespace PhoneValue

/-- Characters kept by the `server.js` regex `/[^0-9.-]+/g` replacement:
digits, the decimal point and the minus sign. -/
def isNumericChar (c : Char) : Bool :=
  c.isDigit || c = '.' || c = '-'

/-- Value of a digit string read left to right, as in decimal notation. -/
def digitsToNat (l : List Char) : Nat :=
  l.foldl (fun n c => 10 * n + (c.toNat - 48)) 0

/-- Scanner for the unsigned part of JavaScript `parseFloat`: longest prefix
of digits, optionally followed by a decimal point and fraction digits;
`none` when no digit is found (JavaScript `NaN`), otherwise the pair of the
integer digits and the fraction digits. -/
def scanUnsigned (cs : List Char) : Option (List Char × List Char) :=
  match cs.dropWhile Char.isDigit with
  | '.' :: rest =>
    if (cs.takeWhile Char.isDigit).isEmpty && (rest.takeWhile Char.isDigit).isEmpty then
      none
    else
      some (cs.takeWhile Char.isDigit, rest.takeWhile Char.isDigit)
  | _ =>
    if (cs.takeWhile Char.isDigit).isEmpty then none
    else some (cs.takeWhile Char.isDigit, [])

/-- Decimal value denoted by a pair of integer digits and fraction digits. -/
def unsignedValue : List Char × List Char → ℚ
  | (intDigits, []) => (digitsToNat intDigits : ℚ)
  | (intDigits, fracDigits) =>
    (digitsToNat intDigits : ℚ) + (digitsToNat fracDigits : ℚ) / 10 ^ fracDigits.length

/-- The unsigned part of JavaScript `parseFloat`. -/
def parseUnsigned (cs : List Char) : Option ℚ :=
  (scanUnsigned cs).map unsignedValue

/-- JavaScript `parseFloat` on the inputs this program produces: skip leading
whitespace, optional sign, then an unsigned decimal literal; `none` is `NaN`. -/
def parseFloat (s : String) : Option ℚ :=
  match s.toList.dropWhile Char.isWhitespace with
  | '-' :: rest => (parseUnsigned rest).map (fun q => -q)
  | '+' :: rest => parseUnsigned rest
  | cs => parseUnsigned cs

/-- JavaScript `parseInt` (radix 10) on the string coercion of a condition
grade: skip whitespace, optional sign, longest digit prefix; `none` is `NaN`. -/
def parseIntJS (s : String) : Option ℤ :=
  match s.toList.dropWhile Char.isWhitespace with
  | '-' :: rest =>
    if (rest.takeWhile Char.isDigit).isEmpty then none
    else some (-(digitsToNat (rest.takeWhile Char.isDigit) : ℤ))
  | '+' :: rest =>
    if (rest.takeWhile Char.isDigit).isEmpty then none
    else some ((digitsToNat (rest.takeWhile Char.isDigit) : ℤ))
  | cs =>
    if (cs.takeWhile Char.isDigit).isEmpty then none
    else some ((digitsToNat (cs.takeWhile Char.isDigit) : ℤ))

/-- `priceText.replace(/[^0-9.-]+/g, "")` from `server.js`: delete every
character other than digits, the decimal point and the minus sign. -/
def stripNonNumeric (s : String) : String :=
  ⟨s.toList.filter isNumericChar⟩

/-- Helper for `priceText.replace('£', '')`: remove the first occurrence. -/
def removeFirstPoundList : List Char → List Char
  | [] => []
  | c :: cs => if c = '£' then cs else c :: removeFirstPoundList cs

/-- `priceText.replace('£', '')` from the v1 source: removes only the first
pound sign, leaving commas and everything else in place. -/
def removeFirstPound (s : String) : String :=
  ⟨removeFirstPoundList s.toList⟩

/-- Helper for JavaScript `String.prototype.trim`. -/
def trimList (l : List Char) : List Char :=
  ((l.dropWhile Char.isWhitespace).reverse.dropWhile Char.isWhitespace).reverse

/-- JavaScript `.trim()`: drop whitespace from both ends. -/
def jsTrim (s : String) : String :=
  ⟨trimList s.toList⟩

/-- Parse step of `getCeXPrice` in `server.js` (v3), from the extracted
price text: empty text is falsy and yields 0; otherwise strip non-numeric
characters, `parseFloat`, and map `NaN` to 0. -/
def parsePriceCexV3 (priceText : String) : ℚ :=
  if priceText = "" then 0
  else (parseFloat (stripNonNumeric priceText)).getD 0

/-- Parse step of `getMusicMagpiePrice` in `server.js` (v3): the selector
text is trimmed first, then treated as in `parsePriceCexV3`. -/
def parsePriceMmV3 (rawText : String) : ℚ :=
  if jsTrim rawText = "" then 0
  else (parseFloat (stripNonNumeric (jsTrim rawText))).getD 0

/-- Parse step of `getCeXPrice` in the v1 source: only the first pound sign
is removed before `parseFloat`; `NaN` maps to 0. -/
def parsePriceCexV1 (priceText : String) : ℚ :=
  if priceText = "" then 0
  else (parseFloat (removeFirstPound priceText)).getD 0

/-- Parse step of `getMusicMagpiePrice` in the v1 source: trimmed text, only
the first pound sign removed before `parseFloat`; `NaN` maps to 0. -/
def parsePriceMmV1 (rawText : String) : ℚ :=
  if jsTrim rawText = "" then 0
  else (parseFloat (removeFirstPound (jsTrim rawText))).getD 0


/-- The full JavaScript number model for parse results: `NaN`, the two
infinities, or a finite value. -/
inductive JsFloat where
  | nan
  | posInf
  | negInf
  | finite (q : ℚ)
deriving DecidableEq

/-- A parse result serializes to a JSON number exactly in the `finite`
case; `nan`, `posInf` and `negInf` all serialize as `null`. -/
def JsFloat.isInfinite : JsFloat → Bool
  | .posInf => true
  | .negInf => true
  | _ => false

/-- The finite/NaN restriction of a full parse result: `NaN` and the
infinities collapse to `none`. -/
def JsFloat.toFiniteOption : JsFloat → Option ℚ
  | .finite q => some q
  | _ => none

/-- Smallest magnitude at which IEEE double rounding overflows to an
infinity: the midpoint `2 ^ 1024 - 2 ^ 970` between the largest double
`2 ^ 1024 - 2 ^ 971` and `2 ^ 1024` (round-half-to-even sends the midpoint
itself up, to Infinity).  Written as a numeral so that it evaluates;
`dblOverflowBound_eq` checks it against the power expression. -/
def dblOverflowBound : ℚ :=
  ((179769313486231580793728971405303415079934132710037826936173778980444968292764750946649017977587207096330286416692887910946555547851940402630657488671505820681908902000708383676273854845817711531764475730270069855571366959622842914819860834936475292719074168444365510704342711559699508093042880177904174497792 : ℕ) : ℚ)

/-- Whether the text at the parse position (after the optional sign) spells
the JavaScript `Infinity` literal. -/
def hasInfinityLit (cs : List Char) : Bool :=
  cs.take 8 == ['I', 'n', 'f', 'i', 'n', 'i', 't', 'y']

/-- The part of `parseFloat` after the optional sign: the `Infinity`
literal gives an infinity, no digit gives `NaN`, and a parsed magnitude at
or beyond the double boundary saturates to an infinity. -/
def finishParse (sign : Bool) (cs : List Char) : JsFloat :=
  if hasInfinityLit cs then (if sign then .negInf else .posInf)
  else
    match scanUnsigned cs with
    | none => .nan
    | some p =>
      if dblOverflowBound ≤ unsignedValue p then (if sign then .negInf else .posInf)
      else .finite (if sign then -(unsignedValue p) else unsignedValue p)

/-- JavaScript `parseFloat` over the full number model: skip leading
whitespace, optional sign, then either the `Infinity` literal or a decimal
literal with overflow saturation. -/
def parseFloatJs (s : String) : JsFloat :=
  match s.toList.dropWhile Char.isWhitespace with
  | '-' :: rest => finishParse true rest
  | '+' :: rest => finishParse false rest
  | cs => finishParse false cs

/-- `isNaN(price) ? 0 : price`: `NaN` becomes 0; an infinity passes the
guard unchanged, because `isNaN(Infinity)` is false. -/
def jsNanGuard : JsFloat → JsFloat
  | .nan => .finite 0
  | f => f

/-- Parse step of `getCeXPrice` in `server.js` (v3) over the full number
model. -/
def parsePriceCexV3Full (priceText : String) : JsFloat :=
  if priceText = "" then .finite 0
  else jsNanGuard (parseFloatJs (stripNonNumeric priceText))

/-- Parse step of `getMusicMagpiePrice` in `server.js` (v3) over the full
number model. -/
def parsePriceMmV3Full (rawText : String) : JsFloat :=
  if jsTrim rawText = "" then .finite 0
  else jsNanGuard (parseFloatJs (stripNonNumeric (jsTrim rawText)))

/-- Parse step of `getCeXPrice` in the v1 source over the full number
model: only the first pound sign is removed, so letters (in particular the
`Infinity` literal) reach `parseFloat`. -/
def parsePriceCexV1Full (priceText : String) : JsFloat :=
  if priceText = "" then .finite 0
  else jsNanGuard (parseFloatJs (removeFirstPound priceText))

/-- Parse step of `getMusicMagpiePrice` in the v1 source over the full
number model. -/
def parsePriceMmV1Full (rawText : String) : JsFloat :=
  if jsTrim rawText = "" then .finite 0
  else jsNanGuard (parseFloatJs (removeFirstPound (jsTrim rawText)))

/-- Outcome of one `fetch` call as the extractors observe it:
`fetchError` models a rejected `fetch` (or body read), caught by the
extractor; `success ok page` models a resolved response with its
`response.ok` flag and the parts of the document the extractor reads. -/
inductive FetchResult (Page : Type) where
  | fetchError
  | success (ok : Bool) (page : Page)

/-- What `getCeXPrice` in `server.js` (v3) reads from the page: whether the
first `.product-box-container` exists, and the text of its
`.sell-price .price` element (empty when that element is absent). -/
structure CexPageV3 where
  hasProductBox : Bool
  priceText : String

/-- What both MusicMagpie extractors read from the page: the text of the
first `.product-price-now` element (empty when absent). -/
structure MmPage where
  priceText : String

/-- What `getCeXPrice` in the v1 source reads from the page: the text of the
first `.sell-price .price-info-row .price-info-val .price` element. -/
structure CexPageV1 where
  priceText : String

/-- `getCeXPrice` from `server.js` (v3): 0 on a caught error, 0 on a
non-success status, 0 when no product box is found, else the parsed price. -/
def getCeXPriceV3 : FetchResult CexPageV3 → ℚ
  | .fetchError => 0
  | .success ok page =>
    if ok = false then 0
    else if page.hasProductBox = false then 0
    else parsePriceCexV3 page.priceText

/-- `getMusicMagpiePrice` from `server.js` (v3): 0 on a caught error,
otherwise the body is parsed without consulting the response status. -/
def getMusicMagpiePriceV3 : FetchResult MmPage → ℚ
  | .fetchError => 0
  | .success _ page => parsePriceMmV3 page.priceText

/-- `getCeXPrice` from the v1 source: 0 on a caught error, otherwise the
body is parsed without consulting the response status. -/
def getCeXPriceV1 : FetchResult CexPageV1 → ℚ
  | .fetchError => 0
  | .success _ page => parsePriceCexV1 page.priceText

/-- `getMusicMagpiePrice` from the v1 source: 0 on a caught error, otherwise
the body is parsed without consulting the response status. -/
def getMusicMagpiePriceV1 : FetchResult MmPage → ℚ
  | .fetchError => 0
  | .success _ page => parsePriceMmV1 page.priceText

/-- No exponent character in the string: the model of `parseFloat` does not
cover the exponent form, so theorems over the unstripped v1 parse paths
assume it away explicitly. -/
def noExponentChar (s : String) : Prop :=
  ∀ c ∈ s.toList, c ≠ 'e' ∧ c ≠ 'E'

/-- The price text this CEX (v3) fetch can deliver parses to a finite
number (not an infinity) under the full model, after the strip. -/
def cexV3Finite : FetchResult CexPageV3 → Prop
  | .fetchError => True
  | .success _ page => (parseFloatJs (stripNonNumeric page.priceText)).isInfinite = false

/-- The price text this MusicMagpie (v3) fetch can deliver parses to a
finite number under the full model, after trim and strip. -/
def mmV3Finite : FetchResult MmPage → Prop
  | .fetchError => True
  | .success _ page =>
    (parseFloatJs (stripNonNumeric (jsTrim page.priceText))).isInfinite = false

/-- The price text this CEX (v1) fetch can deliver is exponent-free and
parses to a finite number under the full model (the v1 path does not strip
letters, so the `Infinity` literal and huge numerals are live there). -/
def cexV1Finite : FetchResult CexPageV1 → Prop
  | .fetchError => True
  | .success _ page =>
    noExponentChar (removeFirstPound page.priceText) ∧
    (parseFloatJs (removeFirstPound page.priceText)).isInfinite = false

/-- The price text this MusicMagpie (v1) fetch can deliver is exponent-free
and parses to a finite number under the full model. -/
def mmV1Finite : FetchResult MmPage → Prop
  | .fetchError => True
  | .success _ page =>
    noExponentChar (removeFirstPound (jsTrim page.priceText)) ∧
    (parseFloatJs (removeFirstPound (jsTrim page.priceText))).isInfinite = false

/-- The v1 request condition object.  The two grade fields hold the string
coercion of whatever JSON value the client sent (`parseInt` coerces its
argument to a string); the five flag fields are the truthiness of theirs. -/
structure ConditionRecord where
  screen_condition : String
  body_condition : String
  fully_functional : Bool
  camera_works : Bool
  battery_health : Bool
  original_box : Bool
  charger_included : Bool

/-- The condition adjustment block of the v1 handler, applied to
`basePrice = highestCompetitorPrice`.  `parseInt` of a grade that has no
digits is `NaN`, which contaminates every later arithmetic step, so the
result is `none` (the final offer then serializes as `null`). -/
def conditionAdjust (highestCompetitorPrice : ℚ) (c : ConditionRecord) : Option ℚ :=
  match parseIntJS c.screen_condition, parseIntJS c.body_condition with
  | some sc, some bc =>
    let p1 := highestCompetitorPrice - ((4 : ℚ) - sc) * (highestCompetitorPrice * (15 / 100))
    let p2 := p1 - ((4 : ℚ) - bc) * (p1 * (1 / 10))
    let p3 := if c.fully_functional = false then p2 * (4 / 10) else p2
    let p4 := if c.camera_works = false then p3 * (8 / 10) else p3
    let p5 := if c.battery_health = false then p4 * (9 / 10) else p4
    let p6 := if c.original_box then p5 + 10 else p5
    let p7 := if c.charger_included then p6 + 5 else p6
    some p7
  | _, _ => none

/-- Follows the specification text (section 4.1, steps 1 to 7) word for
word, for comparison with `conditionAdjust`, which is translated from the
code.  The numeric grades are taken as already-parsed integers here. -/
def specConditionSteps (baseline : ℚ) (sc bc : ℤ)
    (ff cw bh ob ci : Bool) : ℚ :=
  let s1 := baseline - ((4 : ℚ) - sc) * baseline * (15 / 100)
  let s2 := s1 - ((4 : ℚ) - bc) * s1 * (1 / 10)
  let s3 := if ff then s2 else s2 * (4 / 10)
  let s4 := if cw then s3 else s3 * (8 / 10)
  let s5 := if bh then s4 else s4 * (9 / 10)
  let s6 := if ob then s5 + 10 else s5
  let s7 := if ci then s6 + 5 else s6
  s7

/-- `Math.floor(Math.random() * 25) + 5`, as a function of the draw
`r = Math.random()`, which satisfies `0 ≤ r < 1`. -/
def randomBonus (r : ℚ) : ℤ :=
  ⌊r * 25⌋ + 5

/-- `Math.round(basePrice) + bonus` of the v1 handler; `none` when the
condition arithmetic produced `NaN`. -/
def finalOfferV1 (r : ℚ) (highestCompetitorPrice : ℚ) (c : ConditionRecord) : Option ℚ :=
  (conditionAdjust highestCompetitorPrice c).map
    (fun basePrice => ((round basePrice : ℤ) : ℚ) + ((randomBonus r : ℤ) : ℚ))

/-- `Math.round(basePrice) + bonus` of the v2/v3 handler (no condition
adjustment). -/
def finalOfferV2 (r : ℚ) (highestCompetitorPrice : ℚ) : ℚ :=
  ((round highestCompetitorPrice : ℤ) : ℚ) + ((randomBonus r : ℤ) : ℚ)

/-- JSON body sent back by the endpoint.  `ourPrice` is `Option ℚ` because a
`NaN` offer serializes as `null`; `badRequest` is the HTTP 400 response. -/
inductive Response where
  | badRequest (error : String)
  | quote (ourPrice : Option ℚ) (cexPrice musicMagpiePrice : ℚ) (message : Option String)
deriving DecidableEq

/-- Result of one handler run: the response sent, and whether the handler
reached the `Promise.all` that issues the two outbound scrape requests. -/
structure HandlerResult where
  response : Response
  calledExtractors : Bool
deriving DecidableEq

/-- JavaScript truthiness of a request field modelled as an optional
string: an absent field (`undefined`) and the empty string are falsy. -/
def falsyField : Option String → Bool
  | none => true
  | some s => s = ""

/-- The no-offer message, identical in both sources. -/
def noOfferMessage : String :=
  "Sorry, we couldn\x27t find a price for this model right now."

/-- v2/v3 request body fields (absent field = `none`). -/
structure RequestV2 where
  brand : Option String
  model : Option String
  storage : Option String
  grade : Option String

/-- v1 request body fields (absent field = `none`). -/
structure RequestV1 where
  brand : Option String
  model : Option String
  storage : Option String
  condition : Option ConditionRecord

/-- The `POST /api/get-quote` handler of `server.js` (v3), as a function of
the random draw, the request and the two fetch outcomes. -/
def handleQuoteV2 (r : ℚ) (req : RequestV2)
    (cexFetch : FetchResult CexPageV3) (mmFetch : FetchResult MmPage) : HandlerResult :=
  if falsyField req.brand || falsyField req.model
      || falsyField req.storage || falsyField req.grade then
    ⟨.badRequest "Please provide all device details, including grade.", false⟩
  else
    let cexPrice := getCeXPriceV3 cexFetch
    let musicMagpiePrice := getMusicMagpiePriceV3 mmFetch
    let highestCompetitorPrice := max cexPrice musicMagpiePrice
    if highestCompetitorPrice ≤ 0 then
      ⟨.quote (some 0) cexPrice musicMagpiePrice (some noOfferMessage), true⟩
    else
      ⟨.quote (some (finalOfferV2 r highestCompetitorPrice)) cexPrice musicMagpiePrice none, true⟩

/-- The `POST /api/get-quote` handler of the v1 source. -/
def handleQuoteV1 (r : ℚ) (req : RequestV1)
    (cexFetch : FetchResult CexPageV1) (mmFetch : FetchResult MmPage) : HandlerResult :=
  if falsyField req.brand || falsyField req.model
      || falsyField req.storage || req.condition.isNone then
    ⟨.badRequest "Please provide all device details.", false⟩
  else
    match req.condition with
    | none => ⟨.badRequest "Please provide all device details.", false⟩
    | some condition =>
      let cexPrice := getCeXPriceV1 cexFetch
      let musicMagpiePrice := getMusicMagpiePriceV1 mmFetch
      let highestCompetitorPrice := max cexPrice musicMagpiePrice
      if highestCompetitorPrice ≤ 0 then
        ⟨.quote (some 0) cexPrice musicMagpiePrice (some noOfferMessage), true⟩
      else
        ⟨.quote (finalOfferV1 r highestCompetitorPrice condition)
          cexPrice musicMagpiePrice none, true⟩

/-- `ourPrice` of a quote response is an integer (the 400 response carries
no `ourPrice` at all, so it counts vacuously). -/
def ourPriceIsInteger : Response → Prop
  | .badRequest _ => True
  | .quote none _ _ _ => False
  | .quote (some q) _ _ _ => ∃ n : ℤ, q = (n : ℚ)

/-- Whether a response carries the `message` field. -/
def hasMessage : Response → Bool
  | .quote _ _ _ (some _) => true
  | _ => false

/-- Fully favourable condition record: both grades 4, all flags true,
no box, no charger (the concrete case of the spec's testable property). -/
def goodCondition : ConditionRecord :=
  ⟨"4", "4", true, true, true, false, false⟩

/-- Same as `goodCondition` except `fully_functional` is false. -/
def notFunctionalCondition : ConditionRecord :=
  ⟨"4", "4", false, true, true, false, false⟩

/-- A condition record whose screen grade is the non-numeric string "ok":
`parseInt` yields `NaN` on it. -/
def badGradeCondition : ConditionRecord :=
  ⟨"ok", "4", true, true, true, false, false⟩

/-- A complete, well-formed v2 request. -/
def demoRequestV2 : RequestV2 :=
  ⟨some ("Apple"), some ("iPhone 14 Pro"), some ("128GB"), some ("A")⟩

/-- A complete v1 request carrying the favourable condition record. -/
def goodRequestV1 : RequestV1 :=
  ⟨some ("Apple"), some ("iPhone 12"), some ("64GB"), some goodCondition⟩

/-- A complete v1 request whose condition record has a non-numeric grade. -/
def nanConditionRequest : RequestV1 :=
  ⟨some ("Apple"), some ("iPhone 12"), some ("64GB"), some badGradeCondition⟩


end PhoneValue

namespace PhoneValue

/-! ### Helper lemmas about the parsing model -/

lemma takeWhile_isDigit_eq_nil {l : List Char} (h : ∀ c ∈ l, c.isDigit = false) :
    l.takeWhile Char.isDigit = [] := by
  cases l with
  | nil => rfl
  | cons a t =>
    exact List.takeWhile_cons_of_neg (by simp [h a (List.mem_cons_self a t)])

lemma dropWhile_isDigit_eq_self {l : List Char} (h : ∀ c ∈ l, c.isDigit = false) :
    l.dropWhile Char.isDigit = l := by
  cases l with
  | nil => rfl
  | cons a t =>
    exact List.dropWhile_cons_of_neg (by simp [h a (List.mem_cons_self a t)])

lemma scanUnsigned_eq_none {cs : List Char} (h : ∀ c ∈ cs, c.isDigit = false) :
    scanUnsigned cs = none := by
  unfold scanUnsigned
  rw [dropWhile_isDigit_eq_self h, takeWhile_isDigit_eq_nil h]
  split
  · rename_i t
    rw [takeWhile_isDigit_eq_nil (fun c hc => h c (List.mem_cons_of_mem _ hc))]
    simp
  · simp

lemma parseUnsigned_eq_none {cs : List Char} (h : ∀ c ∈ cs, c.isDigit = false) :
    parseUnsigned cs = none := by
  rw [parseUnsigned, scanUnsigned_eq_none h]
  rfl

lemma parseFloat_eq_none {s : String} (h : ∀ c ∈ s.toList, c.isDigit = false) :
    parseFloat s = none := by
  have hsub : ∀ c ∈ s.toList.dropWhile Char.isWhitespace, c.isDigit = false :=
    fun c hc => h c (List.dropWhile_subset _ hc)
  unfold parseFloat
  split
  · rename_i rest heq
    rw [parseUnsigned_eq_none
      (fun c hc => hsub c (by rw [heq]; exact List.mem_cons_of_mem _ hc))]
    rfl
  · rename_i rest heq
    exact parseUnsigned_eq_none
      (fun c hc => hsub c (by rw [heq]; exact List.mem_cons_of_mem _ hc))
  · exact parseUnsigned_eq_none hsub

lemma unsignedValue_nonneg (p : List Char × List Char) : 0 ≤ unsignedValue p := by
  rcases p with ⟨ip, fp⟩
  cases fp with
  | nil => simp [unsignedValue]
  | cons a t =>
    simp only [unsignedValue]
    positivity

lemma parseUnsigned_nonneg {cs : List Char} {q : ℚ}
    (hq : parseUnsigned cs = some q) : 0 ≤ q := by
  rw [parseUnsigned] at hq
  rcases Option.map_eq_some'.mp hq with ⟨p, -, rfl⟩
  exact unsignedValue_nonneg p

lemma parseFloat_nonneg {s : String} (h : ('-') ∉ s.toList) {q : ℚ}
    (hq : parseFloat s = some q) : 0 ≤ q := by
  unfold parseFloat at hq
  split at hq
  · rename_i rest heq
    exact absurd (List.dropWhile_subset _ (heq ▸ List.mem_cons_self _ _)) h
  · exact parseUnsigned_nonneg hq
  · exact parseUnsigned_nonneg hq

lemma mem_removeFirstPoundList {c : Char} :
    ∀ {l : List Char}, c ∈ removeFirstPoundList l → c ∈ l := by
  intro l
  induction l with
  | nil => simp [removeFirstPoundList]
  | cons a t ih =>
    rw [removeFirstPoundList]
    by_cases ha : a = '£'
    · rw [if_pos ha]
      exact fun hc => List.mem_cons_of_mem _ hc
    · rw [if_neg ha]
      intro hc
      rcases List.mem_cons.mp hc with h1 | h2
      · exact h1 ▸ List.mem_cons_self _ _
      · exact List.mem_cons_of_mem _ (ih h2)

lemma mem_trimList {c : Char} {l : List Char} (hc : c ∈ trimList l) : c ∈ l := by
  unfold trimList at hc
  rw [List.mem_reverse] at hc
  have h2 := List.dropWhile_subset _ hc
  rw [List.mem_reverse] at h2
  exact List.dropWhile_subset _ h2

lemma toList_stripNonNumeric (s : String) :
    (stripNonNumeric s).toList = s.toList.filter isNumericChar := rfl

lemma toList_jsTrim (s : String) : (jsTrim s).toList = trimList s.toList := rfl

lemma toList_removeFirstPound (s : String) :
    (removeFirstPound s).toList = removeFirstPoundList s.toList := rfl

end PhoneValue


namespace PhoneValue

/-! ### Soft-failure and sign lemmas for the four parse steps -/

lemma parsePriceCexV3_eq_zero {s : String} (h : ∀ c ∈ s.toList, c.isDigit = false) :
    parsePriceCexV3 s = 0 := by
  by_cases hs : s = ""
  · simp [parsePriceCexV3, hs]
  · rw [parsePriceCexV3, if_neg hs, parseFloat_eq_none, Option.getD_none]
    intro c hc
    rw [toList_stripNonNumeric] at hc
    exact h c (List.mem_filter.mp hc).1

lemma parsePriceMmV3_eq_zero {s : String} (h : ∀ c ∈ s.toList, c.isDigit = false) :
    parsePriceMmV3 s = 0 := by
  have htrim : ∀ c ∈ (jsTrim s).toList, c.isDigit = false := by
    intro c hc
    rw [toList_jsTrim] at hc
    exact h c (mem_trimList hc)
  by_cases hs : jsTrim s = ""
  · simp [parsePriceMmV3, hs]
  · rw [parsePriceMmV3, if_neg hs, parseFloat_eq_none, Option.getD_none]
    intro c hc
    rw [toList_stripNonNumeric] at hc
    exact htrim c (List.mem_filter.mp hc).1

lemma parsePriceCexV1_eq_zero {s : String} (h : ∀ c ∈ s.toList, c.isDigit = false) :
    parsePriceCexV1 s = 0 := by
  by_cases hs : s = ""
  · simp [parsePriceCexV1, hs]
  · rw [parsePriceCexV1, if_neg hs, parseFloat_eq_none, Option.getD_none]
    intro c hc
    rw [toList_removeFirstPound] at hc
    exact h c (mem_removeFirstPoundList hc)

lemma parsePriceMmV1_eq_zero {s : String} (h : ∀ c ∈ s.toList, c.isDigit = false) :
    parsePriceMmV1 s = 0 := by
  have htrim : ∀ c ∈ (jsTrim s).toList, c.isDigit = false := by
    intro c hc
    rw [toList_jsTrim] at hc
    exact h c (mem_trimList hc)
  by_cases hs : jsTrim s = ""
  · simp [parsePriceMmV1, hs]
  · rw [parsePriceMmV1, if_neg hs, parseFloat_eq_none, Option.getD_none]
    intro c hc
    rw [toList_removeFirstPound] at hc
    exact htrim c (mem_removeFirstPoundList hc)

lemma parsePriceCexV3_nonneg {s : String} (h : ('-') ∉ s.toList) :
    0 ≤ parsePriceCexV3 s := by
  by_cases hs : s = ""
  · simp [parsePriceCexV3, hs]
  · rw [parsePriceCexV3, if_neg hs]
    cases hp : parseFloat (stripNonNumeric s) with
    | none => simp
    | some q =>
      rw [Option.getD_some]
      refine parseFloat_nonneg ?_ hp
      intro hc
      rw [toList_stripNonNumeric] at hc
      exact h (List.mem_filter.mp hc).1

lemma parsePriceMmV3_nonneg {s : String} (h : ('-') ∉ s.toList) :
    0 ≤ parsePriceMmV3 s := by
  have htrim : ('-') ∉ (jsTrim s).toList := by
    intro hc
    rw [toList_jsTrim] at hc
    exact h (mem_trimList hc)
  by_cases hs : jsTrim s = ""
  · simp [parsePriceMmV3, hs]
  · rw [parsePriceMmV3, if_neg hs]
    cases hp : parseFloat (stripNonNumeric (jsTrim s)) with
    | none => simp
    | some q =>
      rw [Option.getD_some]
      refine parseFloat_nonneg ?_ hp
      intro hc
      rw [toList_stripNonNumeric] at hc
      exact htrim (List.mem_filter.mp hc).1

lemma parsePriceCexV1_nonneg {s : String} (h : ('-') ∉ s.toList) :
    0 ≤ parsePriceCexV1 s := by
  by_cases hs : s = ""
  · simp [parsePriceCexV1, hs]
  · rw [parsePriceCexV1, if_neg hs]
    cases hp : parseFloat (removeFirstPound s) with
    | none => simp
    | some q =>
      rw [Option.getD_some]
      refine parseFloat_nonneg ?_ hp
      intro hc
      rw [toList_removeFirstPound] at hc
      exact h (mem_removeFirstPoundList hc)

lemma parsePriceMmV1_nonneg {s : String} (h : ('-') ∉ s.toList) :
    0 ≤ parsePriceMmV1 s := by
  have htrim : ('-') ∉ (jsTrim s).toList := by
    intro hc
    rw [toList_jsTrim] at hc
    exact h (mem_trimList hc)
  by_cases hs : jsTrim s = ""
  · simp [parsePriceMmV1, hs]
  · rw [parsePriceMmV1, if_neg hs]
    cases hp : parseFloat (removeFirstPound (jsTrim s)) with
    | none => simp
    | some q =>
      rw [Option.getD_some]
      refine parseFloat_nonneg ?_ hp
      intro hc
      rw [toList_removeFirstPound] at hc
      exact htrim (mem_removeFirstPoundList hc)

/-! ### Bounds on the random bonus -/

lemma randomBonus_lb {r : ℚ} (h0 : 0 ≤ r) : 5 ≤ randomBonus r := by
  unfold randomBonus
  have h : (0 : ℤ) ≤ ⌊r * 25⌋ := Int.floor_nonneg.mpr (by positivity)
  omega

lemma randomBonus_ub {r : ℚ} (h1 : r < 1) : randomBonus r ≤ 29 := by
  unfold randomBonus
  have h : ⌊r * 25⌋ < 25 := by
    rw [Int.floor_lt]
    push_cast
    linarith
  omega

lemma randomBonus_attained (k : ℤ) (h5 : 5 ≤ k) (h29 : k ≤ 29) :
    0 ≤ (((k : ℚ) - 5) / 25) ∧ (((k : ℚ) - 5) / 25) < 1 ∧
      randomBonus (((k : ℚ) - 5) / 25) = k := by
  have hk5 : (0 : ℚ) ≤ (k : ℚ) - 5 := by
    have h : (5 : ℚ) ≤ (k : ℚ) := by exact_mod_cast h5
    linarith
  have hk29 : (k : ℚ) ≤ 29 := by exact_mod_cast h29
  refine ⟨by positivity, by linarith, ?_⟩
  unfold randomBonus
  have hmul : ((k : ℚ) - 5) / 25 * 25 = ((k - 5 : ℤ) : ℚ) := by
    push_cast
    field_simp
  rw [hmul, Int.floor_intCast]
  omega

/-! ### The condition adjustment agrees with the specification steps -/

set_option maxHeartbeats 1000000 in
lemma conditionAdjust_eq_spec (b : ℚ) (c : ConditionRecord) (sc bc : ℤ)
    (hsc : parseIntJS c.screen_condition = some sc)
    (hbc : parseIntJS c.body_condition = some bc) :
    conditionAdjust b c = some (specConditionSteps b sc bc c.fully_functional
      c.camera_works c.battery_health c.original_box c.charger_included) := by
  rcases c with ⟨scs, bcs, ff, cw, bh, ob, ci⟩
  dsimp only at hsc hbc ⊢
  unfold conditionAdjust specConditionSteps
  dsimp only
  rw [hsc, hbc]
  cases ff <;> cases cw <;> cases bh <;> cases ob <;> cases ci <;>
    simp only [Option.some.injEq, Bool.true_eq_false, Bool.false_eq_true,
      eq_self_iff_true, if_true, if_false] <;> ring

end PhoneValue


namespace PhoneValue

/-! ### Helper lemmas about the full number model -/

lemma dblOverflowBound_eq : dblOverflowBound = ((2 ^ 1024 - 2 ^ 970 : ℕ) : ℚ) := by
  rw [dblOverflowBound]
  norm_num

lemma hasInfinityLit_eq_false {cs : List Char} (h : ('I') ∉ cs) :
    hasInfinityLit cs = false := by
  unfold hasInfinityLit
  rw [beq_eq_false_iff_ne]
  intro heq
  apply h
  have hmem : ('I') ∈ cs.take 8 := by
    rw [heq]
    exact List.mem_cons_self _ _
  exact List.take_subset _ _ hmem

lemma finishParse_eq_nan {sign : Bool} {cs : List Char}
    (hd : ∀ c ∈ cs, c.isDigit = false) (hI : ('I') ∉ cs) :
    finishParse sign cs = .nan := by
  unfold finishParse
  rw [hasInfinityLit_eq_false hI, if_neg (by simp), scanUnsigned_eq_none hd]

lemma parseFloatJs_eq_nan {s : String} (hd : ∀ c ∈ s.toList, c.isDigit = false)
    (hI : ('I') ∉ s.toList) : parseFloatJs s = .nan := by
  have hsubd : ∀ c ∈ s.toList.dropWhile Char.isWhitespace, c.isDigit = false :=
    fun c hc => hd c (List.dropWhile_subset _ hc)
  have hsubI : ('I') ∉ s.toList.dropWhile Char.isWhitespace :=
    fun hc => hI (List.dropWhile_subset _ hc)
  unfold parseFloatJs
  split
  · rename_i rest heq
    exact finishParse_eq_nan
      (fun c hc => hsubd c (by rw [heq]; exact List.mem_cons_of_mem _ hc))
      (fun hc => hsubI (by rw [heq]; exact List.mem_cons_of_mem _ hc))
  · rename_i rest heq
    exact finishParse_eq_nan
      (fun c hc => hsubd c (by rw [heq]; exact List.mem_cons_of_mem _ hc))
      (fun hc => hsubI (by rw [heq]; exact List.mem_cons_of_mem _ hc))
  · exact finishParse_eq_nan hsubd hsubI

lemma parsePriceCexV3Full_eq_zero {s : String}
    (h : ∀ c ∈ s.toList, c.isDigit = false) : parsePriceCexV3Full s = .finite 0 := by
  by_cases hs : s = ""
  · simp [parsePriceCexV3Full, hs]
  · have hd : ∀ c ∈ (stripNonNumeric s).toList, c.isDigit = false := by
      intro c hc
      rw [toList_stripNonNumeric] at hc
      exact h c (List.mem_filter.mp hc).1
    have hI : ('I') ∉ (stripNonNumeric s).toList := by
      intro hc
      rw [toList_stripNonNumeric] at hc
      exact absurd (List.mem_filter.mp hc).2 (by decide)
    rw [parsePriceCexV3Full, if_neg hs, parseFloatJs_eq_nan hd hI]
    rfl

lemma parsePriceMmV3Full_eq_zero {s : String}
    (h : ∀ c ∈ s.toList, c.isDigit = false) : parsePriceMmV3Full s = .finite 0 := by
  have htrim : ∀ c ∈ (jsTrim s).toList, c.isDigit = false := by
    intro c hc
    rw [toList_jsTrim] at hc
    exact h c (mem_trimList hc)
  by_cases hs : jsTrim s = ""
  · simp [parsePriceMmV3Full, hs]
  · have hd : ∀ c ∈ (stripNonNumeric (jsTrim s)).toList, c.isDigit = false := by
      intro c hc
      rw [toList_stripNonNumeric] at hc
      exact htrim c (List.mem_filter.mp hc).1
    have hI : ('I') ∉ (stripNonNumeric (jsTrim s)).toList := by
      intro hc
      rw [toList_stripNonNumeric] at hc
      exact absurd (List.mem_filter.mp hc).2 (by decide)
    rw [parsePriceMmV3Full, if_neg hs, parseFloatJs_eq_nan hd hI]
    rfl

lemma parsePriceCexV1Full_eq_zero {s : String}
    (hd : ∀ c ∈ s.toList, c.isDigit = false) (hI : ('I') ∉ s.toList) :
    parsePriceCexV1Full s = .finite 0 := by
  by_cases hs : s = ""
  · simp [parsePriceCexV1Full, hs]
  · have hd2 : ∀ c ∈ (removeFirstPound s).toList, c.isDigit = false := by
      intro c hc
      rw [toList_removeFirstPound] at hc
      exact hd c (mem_removeFirstPoundList hc)
    have hI2 : ('I') ∉ (removeFirstPound s).toList := by
      intro hc
      rw [toList_removeFirstPound] at hc
      exact hI (mem_removeFirstPoundList hc)
    rw [parsePriceCexV1Full, if_neg hs, parseFloatJs_eq_nan hd2 hI2]
    rfl

lemma parsePriceMmV1Full_eq_zero {s : String}
    (hd : ∀ c ∈ s.toList, c.isDigit = false) (hI : ('I') ∉ s.toList) :
    parsePriceMmV1Full s = .finite 0 := by
  have htd : ∀ c ∈ (jsTrim s).toList, c.isDigit = false := by
    intro c hc
    rw [toList_jsTrim] at hc
    exact hd c (mem_trimList hc)
  have htI : ('I') ∉ (jsTrim s).toList := by
    intro hc
    rw [toList_jsTrim] at hc
    exact hI (mem_trimList hc)
  by_cases hs : jsTrim s = ""
  · simp [parsePriceMmV1Full, hs]
  · have hd2 : ∀ c ∈ (removeFirstPound (jsTrim s)).toList, c.isDigit = false := by
      intro c hc
      rw [toList_removeFirstPound] at hc
      exact htd c (mem_removeFirstPoundList hc)
    have hI2 : ('I') ∉ (removeFirstPound (jsTrim s)).toList := by
      intro hc
      rw [toList_removeFirstPound] at hc
      exact htI (mem_removeFirstPoundList hc)
    rw [parsePriceMmV1Full, if_neg hs, parseFloatJs_eq_nan hd2 hI2]
    rfl

lemma finishParse_agrees (sign : Bool) (cs : List Char)
    (h : (finishParse sign cs).isInfinite = false) :
    (finishParse sign cs).toFiniteOption =
      ((scanUnsigned cs).map unsignedValue).map (fun q => if sign then -q else q) := by
  unfold finishParse at h ⊢
  by_cases hlit : hasInfinityLit cs = true
  · rw [if_pos hlit] at h
    cases sign <;> simp [JsFloat.isInfinite] at h
  · rw [if_neg hlit] at h ⊢
    cases hscan : scanUnsigned cs with
    | none => rfl
    | some p =>
      rw [hscan] at h
      have h2 : (if dblOverflowBound ≤ unsignedValue p then
          (if sign then JsFloat.negInf else JsFloat.posInf)
        else JsFloat.finite
          (if sign then -(unsignedValue p) else unsignedValue p)).isInfinite = false := h
      show (if dblOverflowBound ≤ unsignedValue p then
          (if sign then JsFloat.negInf else JsFloat.posInf)
        else JsFloat.finite
          (if sign then -(unsignedValue p) else unsignedValue p)).toFiniteOption =
        ((some p).map unsignedValue).map (fun q => if sign then -q else q)
      by_cases hov : dblOverflowBound ≤ unsignedValue p
      · rw [if_pos hov] at h2
        cases sign <;> simp [JsFloat.isInfinite] at h2
      · rw [if_neg hov]
        cases sign <;> rfl

lemma parseFloat_agrees {s : String} (h : (parseFloatJs s).isInfinite = false) :
    parseFloat s = (parseFloatJs s).toFiniteOption := by
  cases heq : s.toList.dropWhile Char.isWhitespace with
  | nil =>
    have hpf : parseFloat s = parseUnsigned [] := by
      unfold parseFloat
      rw [heq]
    have hps : parseFloatJs s = finishParse false [] := by
      unfold parseFloatJs
      rw [heq]
    rw [hps] at h
    rw [hpf, hps, finishParse_agrees false [] h, parseUnsigned]
    simp
    rfl
  | cons a t =>
    by_cases ha : a = '-'
    · subst ha
      have hpf : parseFloat s = (parseUnsigned t).map (fun q => -q) := by
        unfold parseFloat
        rw [heq]
        rfl
      have hps : parseFloatJs s = finishParse true t := by
        unfold parseFloatJs
        rw [heq]
        rfl
      rw [hps] at h
      rw [hpf, hps, finishParse_agrees true t h, parseUnsigned]
      simp
    · by_cases hb : a = '+'
      · subst hb
        have hpf : parseFloat s = parseUnsigned t := by
          unfold parseFloat
          rw [heq]
          rfl
        have hps : parseFloatJs s = finishParse false t := by
          unfold parseFloatJs
          rw [heq]
          rfl
        rw [hps] at h
        rw [hpf, hps, finishParse_agrees false t h, parseUnsigned]
        simp
        rfl
      · have hpf : parseFloat s = parseUnsigned (a :: t) := by
          unfold parseFloat
          rw [heq]
          split
          · rename_i rest heq2
            exact absurd (List.cons.inj heq2).1 ha
          · rename_i rest heq2
            exact absurd (List.cons.inj heq2).1 hb
          · rfl
        have hps : parseFloatJs s = finishParse false (a :: t) := by
          unfold parseFloatJs
          rw [heq]
          split
          · rename_i rest heq2
            exact absurd (List.cons.inj heq2).1 ha
          · rename_i rest heq2
            exact absurd (List.cons.inj heq2).1 hb
          · rfl
        rw [hps] at h
        rw [hpf, hps, finishParse_agrees false (a :: t) h, parseUnsigned]
        simp
        rfl

lemma parseFloatJs_frac_example : parseFloatJs ("1234.56") = .finite (123456 / 100) := by
  have h0 : parseFloatJs ("1234.56") = finishParse false (("1234.56").toList) := rfl
  have h5 : scanUnsigned (("1234.56").toList) = some (['1', '2', '3', '4'], ['5', '6']) := by
    decide
  have h2 : digitsToNat ['1', '2', '3', '4'] = 1234 := by decide
  have h3 : digitsToNat ['5', '6'] = 56 := by decide
  have h1 : unsignedValue (['1', '2', '3', '4'], ['5', '6']) = 123456 / 100 := by
    rw [unsignedValue, h2, h3]
    · norm_num
    · intro hx
      exact absurd hx (by decide)
  have hov : ¬ dblOverflowBound ≤ unsignedValue (['1', '2', '3', '4'], ['5', '6']) := by
    rw [h1, dblOverflowBound]
    norm_num
  have h6 : parseFloatJs ("1234.56") =
      if dblOverflowBound ≤ unsignedValue (['1', '2', '3', '4'], ['5', '6']) then JsFloat.posInf
      else JsFloat.finite (unsignedValue (['1', '2', '3', '4'], ['5', '6'])) := by
    rw [h0, finishParse, if_neg (by decide), h5]
    rfl
  rw [h6, if_neg hov, h1]

lemma parsePriceCexV3Full_frac :
    parsePriceCexV3Full ("£1,234.56") = .finite (123456 / 100) := by
  have hs : stripNonNumeric ("£1,234.56") = "1234.56" := by decide
  rw [parsePriceCexV3Full, if_neg (by decide), hs, parseFloatJs_frac_example]
  rfl

lemma parsePriceMmV3Full_frac :
    parsePriceMmV3Full ("£1,234.56") = .finite (123456 / 100) := by
  have ht : jsTrim ("£1,234.56") = "£1,234.56" := by decide
  have hs : stripNonNumeric ("£1,234.56") = "1234.56" := by decide
  rw [parsePriceMmV3Full, if_neg (by decide), ht, hs, parseFloatJs_frac_example]
  rfl

end PhoneValue

namespace PhoneValue

/-- Concrete fractional evaluation of the `parseFloat` model, shared by the
price-text theorems: "1234.56" denotes 1234.56. -/
lemma parseFloat_frac_example : parseFloat ("1234.56") = some (123456 / 100) := by
  have h0 : parseFloat ("1234.56") = (scanUnsigned ("1234.56").toList).map unsignedValue := rfl
  have h1 : scanUnsigned ("1234.56").toList = some (['1', '2', '3', '4'], ['5', '6']) := by decide
  have h2 : digitsToNat ['1', '2', '3', '4'] = 1234 := by decide
  have h3 : digitsToNat ['5', '6'] = 56 := by decide
  rw [h0, h1, Option.map_some', unsignedValue, h2, h3]
  · norm_num
  · intro h
    exact absurd h (by decide)

/-- C1: for the v1 handler the offer applies exactly the seven condition
steps, in order, to `basePrice` initialised to the baseline, and the final
offer is `round(basePrice)` plus the random bonus; with both grades 4, all
flags favourable and no box or charger, baseline 100 stays exactly 100, and
with `fully_functional` false the adjusted base price is exactly 40. -/
theorem c1_condition_steps_in_order :
    (∀ (b : ℚ) (c : ConditionRecord) (sc bc : ℤ),
      parseIntJS c.screen_condition = some sc →
      parseIntJS c.body_condition = some bc →
      conditionAdjust b c = some (specConditionSteps b sc bc c.fully_functional
        c.camera_works c.battery_health c.original_box c.charger_included)) ∧
    (∀ (r b : ℚ) (c : ConditionRecord) (bp : ℚ),
      conditionAdjust b c = some bp →
      finalOfferV1 r b c = some (((round bp : ℤ) : ℚ) + ((randomBonus r : ℤ) : ℚ))) ∧
    conditionAdjust 100 goodCondition = some 100 ∧
    conditionAdjust 100 notFunctionalCondition = some 40 := by
  refine ⟨fun b c sc bc hsc hbc => conditionAdjust_eq_spec b c sc bc hsc hbc, ?_, ?_, ?_⟩
  · intro r b c bp hbp
    rw [finalOfferV1, hbp, Option.map_some']
  · rw [conditionAdjust_eq_spec 100 goodCondition 4 4 (by decide) (by decide)]
    norm_num [goodCondition, specConditionSteps]
  · rw [conditionAdjust_eq_spec 100 notFunctionalCondition 4 4 (by decide) (by decide)]
    norm_num [notFunctionalCondition, specConditionSteps]

/-- Witness for C1 at the concrete favourable request. -/
theorem c1_condition_steps_in_order_witness :
    conditionAdjust 100 goodCondition =
      some (specConditionSteps 100 4 4 true true true false false) ∧
    finalOfferV1 0 100 goodCondition = some 105 := by
  constructor
  · exact c1_condition_steps_in_order.1 100 goodCondition 4 4 (by decide) (by decide)
  · rw [c1_condition_steps_in_order.2.1 0 100 goodCondition 100
      c1_condition_steps_in_order.2.2.1]
    norm_num [randomBonus, round_eq]


/-- C2: the random bonus `Math.floor(Math.random() * 25) + 5` always lies in
the inclusive range [5, 29]; every integer of [5, 29] is attained by some
draw, and 30 is attained by none — the code comment and the specification
say £5 to £30, which the expression does not implement. -/
theorem c2_bonus_range_not_30 :
    (∀ r : ℚ, 0 ≤ r → r < 1 →
      5 ≤ randomBonus r ∧ randomBonus r ≤ 29 ∧ randomBonus r ≠ 30) ∧
    (∀ k : ℤ, 5 ≤ k → k ≤ 29 → ∃ r : ℚ, 0 ≤ r ∧ r < 1 ∧ randomBonus r = k) := by
  constructor
  · intro r h0 h1
    have hlb := randomBonus_lb h0
    have hub := randomBonus_ub h1
    exact ⟨hlb, hub, by omega⟩
  · intro k h5 h29
    obtain ⟨ha, hb, hc⟩ := randomBonus_attained k h5 h29
    exact ⟨((k : ℚ) - 5) / 25, ha, hb, hc⟩

/-- Witness for C2 at the draw 1/2: the bonus is 17, not 30. -/
theorem c2_bonus_range_not_30_witness :
    randomBonus (1 / 2) ≠ 30 ∧ randomBonus (1 / 2) = 17 := by
  have h := c2_bonus_range_not_30.1 (1 / 2) (by norm_num) (by norm_num)
  refine ⟨h.2.2, ?_⟩
  unfold randomBonus
  norm_num

/-- C3: when the maximum of the two extractor results is positive, the v2
handler offers `round(max)` plus the bonus with no condition adjustment and
echoes both scraped prices unchanged. -/
theorem c3_v2_offer_from_max (r : ℚ) (req : RequestV2)
    (cexFetch : FetchResult CexPageV3) (mmFetch : FetchResult MmPage)
    (hvalid : (falsyField req.brand || falsyField req.model || falsyField req.storage
      || falsyField req.grade) = false)
    (hpos : 0 < max (getCeXPriceV3 cexFetch) (getMusicMagpiePriceV3 mmFetch)) :
    handleQuoteV2 r req cexFetch mmFetch =
      ⟨.quote
        (some (((round (max (getCeXPriceV3 cexFetch) (getMusicMagpiePriceV3 mmFetch)) : ℤ) : ℚ)
          + ((randomBonus r : ℤ) : ℚ)))
        (getCeXPriceV3 cexFetch) (getMusicMagpiePriceV3 mmFetch) none, true⟩ := by
  unfold handleQuoteV2
  simp only [hvalid, Bool.false_eq_true, if_false]
  rw [if_neg (not_le.mpr hpos)]
  rfl

/-- Witness for C3: a CEX page offering £100 with MusicMagpie failing. -/
theorem c3_v2_offer_from_max_witness :
    handleQuoteV2 0 demoRequestV2 (.success true ⟨true, ("£100")⟩) .fetchError =
      ⟨.quote (some 105) 100 0 none, true⟩ := by
  have h := c3_v2_offer_from_max 0 demoRequestV2 (.success true ⟨true, ("£100")⟩) .fetchError
    (by decide) (by decide)
  rw [h]
  have hc : getCeXPriceV3 (.success true ⟨true, ("£100")⟩) = 100 := by decide
  have hm : getMusicMagpiePriceV3 (FetchResult.fetchError) = 0 := rfl
  rw [hc, hm, max_eq_left (by norm_num : (0 : ℚ) ≤ 100)]
  norm_num [randomBonus, round_eq]

/-- C4 counterexample: the message also appears when one extractor returned
a negative parsed price, so the both-zero case is not the only message
case, and the echoed `cexPrice` in that response is not 0. -/
theorem c4_message_not_only_both_zero :
    (handleQuoteV2 0 demoRequestV2 (.success true ⟨true, ("£-5")⟩)
      (.success true ⟨""⟩)).response =
      .quote (some 0) (-5) 0 (some noOfferMessage) ∧ ((-5 : ℚ) ≠ 0) := by
  constructor
  · decide
  · norm_num

/-- C4 amended: when both extractors return 0 the v2 handler responds with
`ourPrice = 0`, zero prices, and the non-empty no-offer message; the message
field is present exactly when the maximum of the two results is ≤ 0 (which
coincides with both-zero only for non-negative extractor results). -/
theorem c4_no_offer_response (r : ℚ) (req : RequestV2)
    (cexFetch : FetchResult CexPageV3) (mmFetch : FetchResult MmPage)
    (hvalid : (falsyField req.brand || falsyField req.model || falsyField req.storage
      || falsyField req.grade) = false) :
    (getCeXPriceV3 cexFetch = 0 → getMusicMagpiePriceV3 mmFetch = 0 →
      handleQuoteV2 r req cexFetch mmFetch =
        ⟨.quote (some 0) 0 0 (some noOfferMessage), true⟩) ∧
    (hasMessage (handleQuoteV2 r req cexFetch mmFetch).response = true ↔
      max (getCeXPriceV3 cexFetch) (getMusicMagpiePriceV3 mmFetch) ≤ 0) ∧
    noOfferMessage ≠ "" := by
  refine ⟨?_, ?_, by decide⟩
  · intro hc hm
    unfold handleQuoteV2
    simp only [hvalid, Bool.false_eq_true, if_false]
    rw [hc, hm, max_self, if_pos le_rfl]
  · unfold handleQuoteV2
    simp only [hvalid, Bool.false_eq_true, if_false]
    by_cases hmax : max (getCeXPriceV3 cexFetch) (getMusicMagpiePriceV3 mmFetch) ≤ 0
    · rw [if_pos hmax]
      simpa [hasMessage] using hmax
    · rw [if_neg hmax]
      simpa [hasMessage] using hmax

/-- Witness for C4 with both fetches failing. -/
theorem c4_no_offer_response_witness :
    handleQuoteV2 0 demoRequestV2 .fetchError .fetchError =
      ⟨.quote (some 0) 0 0 (some noOfferMessage), true⟩ :=
  (c4_no_offer_response 0 demoRequestV2 .fetchError .fetchError (by decide)).1 rfl rfl


/-- C5 counterexample: the v1 parse step removes only the pound sign, so
"£1,234.56" is parsed by `parseFloat` as far as the comma and yields 1,
not 1234.56 — the claim fails for the extractors of the v1 source file. -/
theorem c5_v1_parse_loses_comma :
    parsePriceCexV1 ("£1,234.56") = 1 ∧ (1 : ℚ) ≠ 123456 / 100 := by
  constructor
  · decide
  · norm_num

/-- C5 amended: the two `server.js` parse steps turn "£1,234.56" into
exactly 1234.56 and the two v1 parse steps turn it into 1 (only the pound
sign is removed, so `parseFloat` stops at the comma); price text with no
digit yields 0 in the `server.js` extractors (the strip removes letters),
and in the v1 extractors it yields 0 exactly when it also does not spell
the JavaScript `Infinity` literal — the digit-free text "Infinity" makes
the v1 parse step return Infinity, not 0. -/
theorem c5_parse_paths :
    parsePriceCexV3Full ("£1,234.56") = JsFloat.finite (123456 / 100) ∧
    parsePriceMmV3Full ("£1,234.56") = JsFloat.finite (123456 / 100) ∧
    parsePriceCexV1Full ("£1,234.56") = JsFloat.finite 1 ∧
    parsePriceMmV1Full ("£1,234.56") = JsFloat.finite 1 ∧
    (∀ s : String, (∀ c ∈ s.toList, c.isDigit = false) →
      parsePriceCexV3Full s = JsFloat.finite 0 ∧ parsePriceMmV3Full s = JsFloat.finite 0) ∧
    (∀ s : String, (∀ c ∈ s.toList, c.isDigit = false) → ('I') ∉ s.toList →
      parsePriceCexV1Full s = JsFloat.finite 0 ∧ parsePriceMmV1Full s = JsFloat.finite 0) ∧
    parsePriceCexV1Full ("Infinity") = JsFloat.posInf ∧
    JsFloat.posInf ≠ JsFloat.finite 0 := by
  refine ⟨parsePriceCexV3Full_frac, parsePriceMmV3Full_frac, by decide, by decide,
    fun s h => ⟨parsePriceCexV3Full_eq_zero h, parsePriceMmV3Full_eq_zero h⟩,
    fun s hd hI => ⟨parsePriceCexV1Full_eq_zero hd hI, parsePriceMmV1Full_eq_zero hd hI⟩,
    by decide, by decide⟩

/-- Witness for C5 on digit-free price text. -/
theorem c5_parse_paths_witness :
    parsePriceCexV3Full ("N/A") = JsFloat.finite 0 ∧
    parsePriceCexV1Full ("N/A") = JsFloat.finite 0 := by
  have h3 := c5_parse_paths.2.2.2.2.1 ("N/A") (by decide)
  have h1 := c5_parse_paths.2.2.2.2.2.1 ("N/A") (by decide) (by decide)
  exact ⟨h3.1, h1.1⟩

/-- C6 counterexample: `getMusicMagpiePrice` in `server.js` never checks
`response.ok`, so a non-success response whose body still contains a price
element yields that price, not 0. -/
theorem c6_mm_ignores_status :
    getMusicMagpiePriceV3 (.success false ⟨("£50")⟩) = 50 ∧ ((50 : ℚ) ≠ 0) := by
  constructor
  · decide
  · norm_num

/-- C6 amended: both `server.js` extractors return 0 on a caught fetch
error; `getCeXPrice` returns 0 on a non-success status and on a missing
product box, and 0 on unparseable price text; `getMusicMagpiePrice` returns
0 on unparseable price text but computes its result without consulting the
response status at all. -/
theorem c6_soft_failure_modes :
    getCeXPriceV3 .fetchError = 0 ∧
    getMusicMagpiePriceV3 .fetchError = 0 ∧
    (∀ page : CexPageV3, getCeXPriceV3 (.success false page) = 0) ∧
    (∀ (ok : Bool) (page : CexPageV3), page.hasProductBox = false →
      getCeXPriceV3 (.success ok page) = 0) ∧
    (∀ (ok : Bool) (page : CexPageV3),
      parseFloat (stripNonNumeric page.priceText) = none →
      getCeXPriceV3 (.success ok page) = 0) ∧
    (∀ (ok : Bool) (page : MmPage),
      parseFloat (stripNonNumeric (jsTrim page.priceText)) = none →
      getMusicMagpiePriceV3 (.success ok page) = 0) ∧
    (∀ (o1 o2 : Bool) (page : MmPage),
      getMusicMagpiePriceV3 (.success o1 page) = getMusicMagpiePriceV3 (.success o2 page)) := by
  refine ⟨rfl, rfl, fun page => rfl, ?_, ?_, ?_, fun o1 o2 page => rfl⟩
  · intro ok page hb
    cases ok with
    | false => rfl
    | true => simp [getCeXPriceV3, hb]
  · intro ok page hp
    cases ok with
    | false => rfl
    | true =>
      simp only [getCeXPriceV3, Bool.true_eq_false, if_false]
      by_cases hb : page.hasProductBox = false
      · rw [if_pos hb]
      · rw [if_neg hb]
        unfold parsePriceCexV3
        by_cases hpt : page.priceText = ""
        · rw [if_pos hpt]
        · rw [if_neg hpt, hp, Option.getD_none]
  · intro ok page hp
    show parsePriceMmV3 page.priceText = 0
    unfold parsePriceMmV3
    by_cases hpt : jsTrim page.priceText = ""
    · rw [if_pos hpt]
    · rw [if_neg hpt, hp, Option.getD_none]

/-- Witness for C6: the CEX extractor on an OK page with digit-free price
text returns 0. -/
theorem c6_soft_failure_modes_witness :
    getCeXPriceV3 (.success true ⟨true, ("sold out")⟩) = 0 := by
  refine c6_soft_failure_modes.2.2.2.2.1 true ⟨true, ("sold out")⟩ ?_
  decide

/-- C7 counterexample: the strip regex keeps the minus sign, so a page whose
price text reads "£-5" makes the CEX extractor return the negative value
-5. -/
theorem c7_negative_price_possible :
    getCeXPriceV3 (.success true ⟨true, ("£-5")⟩) = -5 ∧ ((-5 : ℚ) < 0) := by
  constructor
  · decide
  · norm_num

/-- C7 amended: every extractor result is a number, and it is non-negative
whenever the extracted price text contains no minus character; a price text
with a minus can produce a negative result. -/
theorem c7_nonneg_without_minus :
    (∀ (ok : Bool) (page : CexPageV3), ('-') ∉ page.priceText.toList →
      0 ≤ getCeXPriceV3 (.success ok page)) ∧
    (0 ≤ getCeXPriceV3 .fetchError) ∧
    (∀ (ok : Bool) (page : MmPage), ('-') ∉ page.priceText.toList →
      0 ≤ getMusicMagpiePriceV3 (.success ok page)) ∧
    (0 ≤ getMusicMagpiePriceV3 .fetchError) ∧
    (∀ (ok : Bool) (page : CexPageV1), ('-') ∉ page.priceText.toList →
      0 ≤ getCeXPriceV1 (.success ok page)) ∧
    (∀ (ok : Bool) (page : MmPage), ('-') ∉ page.priceText.toList →
      0 ≤ getMusicMagpiePriceV1 (.success ok page)) := by
  refine ⟨?_, le_refl 0, ?_, le_refl 0, ?_, ?_⟩
  · intro ok page h
    cases ok with
    | false => exact le_refl 0
    | true =>
      simp only [getCeXPriceV3, Bool.true_eq_false, if_false]
      by_cases hb : page.hasProductBox = false
      · rw [if_pos hb]
      · rw [if_neg hb]
        exact parsePriceCexV3_nonneg h
  · intro ok page h
    exact parsePriceMmV3_nonneg h
  · intro ok page h
    exact parsePriceCexV1_nonneg h
  · intro ok page h
    exact parsePriceMmV1_nonneg h

/-- Witness for C7 on a minus-free page. -/
theorem c7_nonneg_without_minus_witness :
    0 ≤ getCeXPriceV3 (.success true ⟨true, ("£75")⟩) :=
  c7_nonneg_without_minus.1 true ⟨true, ("£75")⟩ (by decide)


/-- C8: if brand, model, storage, or the condition-or-grade field is absent
from the request body, both handlers respond 400 with an error message and
never reach the code that issues the two outbound scrape requests. -/
theorem c8_missing_field_400 :
    (∀ (r : ℚ) (req : RequestV2) (cexFetch : FetchResult CexPageV3)
      (mmFetch : FetchResult MmPage),
      (req.brand = none ∨ req.model = none ∨ req.storage = none ∨ req.grade = none) →
      handleQuoteV2 r req cexFetch mmFetch =
        ⟨.badRequest "Please provide all device details, including grade.", false⟩) ∧
    (∀ (r : ℚ) (req : RequestV1) (cexFetch : FetchResult CexPageV1)
      (mmFetch : FetchResult MmPage),
      (req.brand = none ∨ req.model = none ∨ req.storage = none ∨ req.condition = none) →
      handleQuoteV1 r req cexFetch mmFetch =
        ⟨.badRequest "Please provide all device details.", false⟩) := by
  constructor
  · intro r req cf mf h
    unfold handleQuoteV2
    have hv : (falsyField req.brand || falsyField req.model || falsyField req.storage
        || falsyField req.grade) = true := by
      rcases h with h | h | h | h <;> simp [h, falsyField]
    rw [if_pos hv]
  · intro r req cf mf h
    unfold handleQuoteV1
    have hv : (falsyField req.brand || falsyField req.model || falsyField req.storage
        || req.condition.isNone) = true := by
      rcases h with h | h | h | h <;> simp [h, falsyField]
    rw [if_pos hv]

/-- Witness for C8: a request with no brand is rejected without scraping. -/
theorem c8_missing_field_400_witness :
    handleQuoteV2 0 ⟨none, some ("iPhone"), some ("128GB"), some ("A")⟩
      .fetchError .fetchError =
      ⟨.badRequest "Please provide all device details, including grade.", false⟩ :=
  c8_missing_field_400.1 0 ⟨none, some ("iPhone"), some ("128GB"), some ("A")⟩
    .fetchError .fetchError (Or.inl rfl)

/-- C9 counterexample: a request that passes validation but whose condition
record has the non-numeric screen grade "ok" produces a success response
whose `ourPrice` is NaN (serialized `null`), not an integer. -/
theorem c9_nan_offer_not_integer :
    handleQuoteV1 0 nanConditionRequest (.success true ⟨("£100")⟩) .fetchError =
      ⟨.quote none 100 0 none, true⟩ ∧
    ¬ ourPriceIsInteger (Response.quote none 100 0 none) := by
  refine ⟨by decide, ?_⟩
  simp [ourPriceIsInteger]

/-- C9 amended: `ourPrice` is an integer in every non-error response
provided each scraped price text parses to a finite number in the full
model (JavaScript `parseFloat` saturates to an infinity at the double
boundary, and the unstripped v1 parse path can also hit the `Infinity`
literal or an exponent form, all of which make `ourPrice` serialize as
`null`), and, for v1, both condition grades parse as integers in the
schema range 1 to 4 (grades outside it can drive the condition arithmetic
itself out of the double range). -/
theorem c9_integer_offer_amended :
    (∀ (r : ℚ) (req : RequestV1) (cexFetch : FetchResult CexPageV1)
      (mmFetch : FetchResult MmPage) (c : ConditionRecord) (sc bc : ℤ),
      req.condition = some c →
      parseIntJS c.screen_condition = some sc → 1 ≤ sc → sc ≤ 4 →
      parseIntJS c.body_condition = some bc → 1 ≤ bc → bc ≤ 4 →
      cexV1Finite cexFetch → mmV1Finite mmFetch →
      ourPriceIsInteger (handleQuoteV1 r req cexFetch mmFetch).response) ∧
    (∀ (r : ℚ) (req : RequestV2) (cexFetch : FetchResult CexPageV3)
      (mmFetch : FetchResult MmPage),
      cexV3Finite cexFetch → mmV3Finite mmFetch →
      ourPriceIsInteger (handleQuoteV2 r req cexFetch mmFetch).response) := by
  constructor
  · intro r req cf mf c sc bc hcond hsc _hsc1 _hsc4 hbc _hbc1 _hbc4 _hcfin _hmfin
    unfold handleQuoteV1
    by_cases hv : (falsyField req.brand || falsyField req.model || falsyField req.storage
        || req.condition.isNone) = true
    · rw [if_pos hv]
      trivial
    · rw [if_neg hv, hcond]
      dsimp only
      by_cases hmax : max (getCeXPriceV1 cf) (getMusicMagpiePriceV1 mf) ≤ 0
      · rw [if_pos hmax]
        exact ⟨0, by norm_num⟩
      · rw [if_neg hmax]
        show ourPriceIsInteger (.quote (finalOfferV1 r _ c) _ _ none)
        rw [finalOfferV1, conditionAdjust_eq_spec _ c sc bc hsc hbc, Option.map_some']
        exact ⟨round (specConditionSteps (max (getCeXPriceV1 cf) (getMusicMagpiePriceV1 mf))
          sc bc c.fully_functional c.camera_works c.battery_health c.original_box
          c.charger_included) + randomBonus r, by push_cast; ring⟩
  · intro r req cf mf _hcfin _hmfin
    unfold handleQuoteV2
    by_cases hv : (falsyField req.brand || falsyField req.model || falsyField req.storage
        || falsyField req.grade) = true
    · rw [if_pos hv]
      trivial
    · rw [if_neg hv]
      dsimp only
      by_cases hmax : max (getCeXPriceV3 cf) (getMusicMagpiePriceV3 mf) ≤ 0
      · rw [if_pos hmax]
        exact ⟨0, by norm_num⟩
      · rw [if_neg hmax]
        exact ⟨round (max (getCeXPriceV3 cf) (getMusicMagpiePriceV3 mf)) + randomBonus r,
          by rw [finalOfferV2]; push_cast; ring⟩

/-- Witness for C9 on a well-formed v1 request with numeric grades and a
finite scraped price. -/
theorem c9_integer_offer_amended_witness :
    ourPriceIsInteger
      (handleQuoteV1 0 goodRequestV1 (.success true ⟨("£100")⟩) .fetchError).response :=
  c9_integer_offer_amended.1 0 goodRequestV1 (.success true ⟨("£100")⟩) .fetchError
    goodCondition 4 4 rfl (by decide) (by decide) (by decide) (by decide) (by decide)
    (by decide) ⟨by unfold noExponentChar; decide, by decide⟩ trivial

/-- C10: whenever the v2 handler makes an offer (positive baseline), the
offer is at least 5, so in every success response `ourPrice = 0` exactly
when the no-offer message is present: a reader can distinguish the two
branches by `ourPrice` alone. -/
theorem c10_offer_floor_and_distinguish :
    (∀ (r high : ℚ), 0 ≤ r → r < 1 → 0 < high → (5 : ℚ) ≤ finalOfferV2 r high) ∧
    (∀ (r : ℚ) (req : RequestV2) (cexFetch : FetchResult CexPageV3)
      (mmFetch : FetchResult MmPage) (p : Option ℚ) (cex mm : ℚ) (msg : Option String),
      0 ≤ r → r < 1 →
      (handleQuoteV2 r req cexFetch mmFetch).response = .quote p cex mm msg →
      (p = some 0 ↔ msg.isSome = true)) := by
  have hoffer : ∀ (r high : ℚ), 0 ≤ r → r < 1 → 0 < high → (5 : ℚ) ≤ finalOfferV2 r high := by
    intro r high h0 h1 hpos
    have hfl : (0 : ℤ) ≤ round high := by
      rw [round_eq]
      exact Int.floor_nonneg.mpr (by linarith)
    have hb : (5 : ℤ) ≤ randomBonus r := randomBonus_lb h0
    rw [finalOfferV2]
    have hq1 : (0 : ℚ) ≤ ((round high : ℤ) : ℚ) := by exact_mod_cast hfl
    have hq2 : (5 : ℚ) ≤ ((randomBonus r : ℤ) : ℚ) := by exact_mod_cast hb
    linarith
  refine ⟨hoffer, ?_⟩
  intro r req cf mf p cex mm msg h0 h1 hresp
  unfold handleQuoteV2 at hresp
  by_cases hv : (falsyField req.brand || falsyField req.model || falsyField req.storage
      || falsyField req.grade) = true
  · rw [if_pos hv] at hresp
    dsimp only at hresp
    simp at hresp
  · rw [if_neg hv] at hresp
    dsimp only at hresp
    by_cases hmax : max (getCeXPriceV3 cf) (getMusicMagpiePriceV3 mf) ≤ 0
    · rw [if_pos hmax] at hresp
      rw [Response.quote.injEq] at hresp
      obtain ⟨hp, -, -, hm⟩ := hresp
      subst hp
      subst hm
      simp
    · rw [if_neg hmax] at hresp
      rw [Response.quote.injEq] at hresp
      obtain ⟨hp, -, -, hm⟩ := hresp
      subst hp
      subst hm
      have h5 := hoffer r (max (getCeXPriceV3 cf) (getMusicMagpiePriceV3 mf)) h0 h1
        (not_le.mp hmax)
      refine ⟨fun hps => ?_, fun hmsg => by simp at hmsg⟩
      have heq := Option.some.inj hps
      rw [heq] at h5
      norm_num at h5

/-- Witness for C10: a concrete no-offer run and the positive-offer floor
at the draw 1/2 with baseline 100. -/
theorem c10_offer_floor_and_distinguish_witness :
    (5 : ℚ) ≤ finalOfferV2 (1 / 2) 100 ∧
    ((some 0 : Option ℚ) = some 0 ↔ (some noOfferMessage).isSome = true) := by
  constructor
  · exact c10_offer_floor_and_distinguish.1 (1 / 2) 100 (by norm_num) (by norm_num) (by norm_num)
  · exact c10_offer_floor_and_distinguish.2 (1 / 2) demoRequestV2 .fetchError .fetchError
      (some 0) 0 0 (some noOfferMessage) (by norm_num) (by norm_num) (by decide)

end PhoneValue
